import Mathlib

/-!
# haleyrc/obsidian: a shallow embedding of the movie vault

Go strings are modelled as Lean `String`s, that is as sequences of Unicode
code points (the UTF-8 decoding of a well-formed Go string).  Every pattern
of the filename replacer is a single ASCII byte, so replacing bytes and
replacing code points agree on such strings.  Go's `int` is modelled as
`Int` (only comparisons are made on it) and `float64` by `Float64` below.
Calls to `log.Println` and `log.Printf` write to standard error only and are
left out of the embedding.
-/

namespace Obsidian

/-! ## internal/obsidian/obsidian.go -/

/-- The argument list of `strings.NewReplacer` in `SanitizeFilename`: pairs of
an old single-character string and the string replacing it. -/
def replacerPairs : List (Char × List Char) :=
  [ ('/', ['-']),
    (Char.ofNat 92, ['-']),
    (':', [' ', '-']),
    ('*', []),
    ('?', []),
    (Char.ofNat 34, []),
    ('<', []),
    ('>', []),
    ('|', ['-']),
    ('.', []) ]

/-- What a replacer writes for one character: the new string of the first
pair whose old string is that character, the character itself when there is
none. -/
def replaceChar : List (Char × List Char) → Char → List Char
  | [], c => [c]
  | (old, new) :: rest, c => if c = old then new else replaceChar rest c

/-- The method `(*strings.Replacer).Replace` for a replacer whose old strings
are all one character long: every character is looked up on its own, and
replaced text is not scanned again. -/
def Replace (pairs : List (Char × List Char)) : List Char → List Char
  | [] => []
  | c :: cs => replaceChar pairs c ++ Replace pairs cs

/-- The predicate `unicode.IsSpace`: the code points with Unicode's White_Space
property. -/
def IsSpace (c : Char) : Bool :=
  let n := c.toNat
  (0x09 ≤ n && n ≤ 0x0D) || n = 0x20 || n = 0x85 || n = 0xA0 || n = 0x1680 ||
  (0x2000 ≤ n && n ≤ 0x200A) || n = 0x2028 || n = 0x2029 || n = 0x202F ||
  n = 0x205F || n = 0x3000

/-- The function `strings.TrimSpace` on a list of code points: leading white
space is dropped, then trailing white space. -/
def trimSpaceChars (cs : List Char) : List Char :=
  ((cs.dropWhile IsSpace).reverse.dropWhile IsSpace).reverse

/-- The function `strings.TrimSpace`. -/
def TrimSpace (s : String) : String := ⟨trimSpaceChars s.data⟩

/-- SanitizeFilename replaces or removes characters that are not allowed in
Obsidian note filenames. -/
def SanitizeFilename (s : String) : String :=
  TrimSpace ⟨Replace replacerPairs s.data⟩

/-- A Go `string`. -/
abbrev GoString : Type := String

/-- A Go `error` value that is not `nil`, modelled by its message. -/
abbrev Error : Type := String

/-- Link is an Obsidian internal link target, rendered as [[name]] in
markdown.  In Go it is a defined type over `string`. -/
structure Link where
  name : String
  deriving DecidableEq, Repr

/-- String returns the link formatted in Obsidian's [[name]] syntax:
`fmt.Sprintf("[[%s]]", string(l))`. -/
def Link.String (l : Link) : String := "[[" ++ l.name ++ "]]"

/-- MarshalYAML encodes the link in Obsidian's [[name]] syntax; the pair is the
returned value and the returned error (`none` for `nil`). -/
def Link.MarshalYAML (l : Link) : GoString × Option Error := (l.String, none)

/-! ## float64 -/

/-- A `float64` value: not-a-number, an infinity, or a finite value, which is
a rational number (both zeros are `finite 0`).  Only comparisons are made on
these values. -/
inductive Float64 where
  | nan
  | negInf
  | posInf
  | finite (q : ℚ)
  deriving DecidableEq

/-- The comparison `a < b` of two `float64` values; false when either is
not-a-number. -/
def Float64.lt : Float64 → Float64 → Bool
  | .nan, _ => false
  | _, .nan => false
  | .negInf, .negInf => false
  | .negInf, _ => true
  | _, .negInf => false
  | .posInf, _ => false
  | .finite _, .posInf => true
  | .finite a, .finite b => decide (a < b)

/-- The comparison `a >= b` of two `float64` values; false when either is
not-a-number. -/
def Float64.ge : Float64 → Float64 → Bool
  | .nan, _ => false
  | _, .nan => false
  | _, .negInf => true
  | .negInf, _ => false
  | .posInf, _ => true
  | .finite _, .posInf => false
  | .finite a, .finite b => decide (b ≤ a)

/-- The constant `1.0`. -/
def Float64.one : Float64 := .finite 1

/-! ## internal/movies/actor.go, vault.go: the cast filter -/

/-- Actor represents a cast member from a movie's credits. -/
structure Actor where
  Name : String
  Order : Int
  Popularity : Float64
  deriving DecidableEq

/-- The body of the `for _, star := range cast` loop of `filterCast`, with
`names` the slice built so far: the three tests are made in the order of the
source, each appending the name and continuing with the next actor. -/
def filterCast.loop (knownActors : List String) : List Actor → List String → List String
  | [], names => names
  | star :: rest, names =>
    if star.Order < 10 then
      filterCast.loop knownActors rest (names ++ [star.Name])
    else if star.Popularity.ge Float64.one then
      filterCast.loop knownActors rest (names ++ [star.Name])
    else if knownActors.contains star.Name then
      filterCast.loop knownActors rest (names ++ [star.Name])
    else
      filterCast.loop knownActors rest names

/-- The function `filterCast` of vault.go: the loop started on the empty
slice. -/
def filterCast (cast : List Actor) (knownActors : List String) : List String :=
  filterCast.loop knownActors cast []

/-! ## path/filepath -/

/-- The elements of a slash-separated path: the text between the separators,
empty elements included. -/
def splitSlash : List Char → List (List Char)
  | [] => [[]]
  | c :: cs =>
    if c = '/' then [] :: splitSlash cs
    else
      match splitSlash cs with
      | [] => [[c]]
      | seg :: rest => (c :: seg) :: rest

/-- One step of `filepath.Clean` over the elements of a path, the kept
elements being held last one first: an empty element and `.` are dropped, `..`
removes the kept element before it when that is not itself `..`, is dropped at
the root of a rooted path and is kept otherwise, and any other element is
kept. -/
def cleanStep (rooted : Bool) (kept : List (List Char)) (seg : List Char) : List (List Char) :=
  if seg = [] ∨ seg = ['.'] then kept
  else if seg = ['.', '.'] then
    match kept with
    | [] => if rooted then [] else [seg]
    | top :: below => if top = ['.', '.'] then seg :: kept else below
  else seg :: kept

/-- The kept elements joined by single slashes. -/
def joinSlash : List (List Char) → List Char
  | [] => []
  | [seg] => seg
  | seg :: rest => seg ++ '/' :: joinSlash rest

/-- The function `filepath.Clean` on a Unix system, by its documented rules:
the shortest path naming the same file by lexical processing alone; the empty
path becomes `.`. -/
def cleanChars (path : List Char) : List Char :=
  let rooted := path.head? = some '/'
  let kept := (splitSlash path).foldl (cleanStep rooted) []
  let out := (if rooted then ['/'] else []) ++ joinSlash kept.reverse
  if out = [] then ['.'] else out

/-- The function `filepath.Join` for two elements on a Unix system: empty
elements are ignored, the rest are joined by a slash and the result is cleaned;
the result is empty when both elements are. -/
def Join (a b : String) : String :=
  if a ≠ "" then ⟨cleanChars (a.data ++ '/' :: b.data)⟩
  else if b ≠ "" then ⟨cleanChars b.data⟩
  else ""

/-! ## internal/movies/movie.go -/

/-- Movie holds the raw metadata retrieved from TMDB for a single film. -/
structure Movie where
  Cast : List Actor
  Collection : String
  Genres : List String
  IMDBID : String
  PosterURL : String
  ReleaseDate : String
  Runtime : Int
  Synopsis : String
  TMDBID : Int
  Title : String

/-- MovieNote is the Obsidian-ready representation of a movie, split into YAML
frontmatter fields and template body fields. -/
structure MovieNote where
  IMDBID : String
  LastWatched : String
  Owned : Bool
  Playlists : List Link
  TMDBID : Int
  Cast : List Link
  Collection : Link
  Genres : List Link
  IMDBURL : String
  Poster : Link
  ReleaseDate : String
  Runtime : Int
  Synopsis : String
  Title : String
  TMDBURL : String

/-- MovieSearchResult is a summary of a movie returned from a TMDB search
query. -/
structure MovieSearchResult where
  ID : Int
  ReleaseDate : String
  Synopsis : String
  Title : String
  deriving DecidableEq

/-! ## The file system and the network -/

/-- The contents of a file. -/
abbrev Bytes : Type := List (Fin 256)

/-- The regular files on disk, by the path they were opened with: the contents
of the file at each path, `none` where there is no file.  On a disk two
different paths can name one file; the map keeps them apart, so it tells at
which paths a file was created or written and is not used to conclude that a
file at some other path was left alone. -/
abbrev Files : Type := String → Option Bytes

/-- What `http.Get` returns when it returns no error: the status code and
status line, the bytes that can be read from the body, and the error the read
ends with when it does not end at the end of the body. -/
structure Response where
  StatusCode : Nat
  Status : String
  Body : Bytes
  BodyErr : Option Error

/-- The surroundings of a run: the outcome of the calls the program makes to
the network (`http.Get`), to the file system (`os.Create`, and `io.Copy` into
a file just created, which on failure has written a number of bytes), and to
the YAML encoder and the template `movie.tmpl` that `MovieNote.Write` renders
a note with. -/
structure Env where
  httpGet : String → Except Error Response
  osCreate : Files → String → Option Error
  fileCopy : Files → String → Bytes → Option (Error × Nat)
  render : MovieNote → Except Error Bytes

/-! ## internal/http/http.go -/

/-- Download fetches the contents of url and writes them to w; the result is
what was written and the error returned. -/
def Download (env : Env) (url : String) : Bytes × Option Error :=
  match env.httpGet url with
  | .error err => ([], some ("download: " ++ err))
  | .ok response =>
    if response.StatusCode ≠ 200 then
      ([], some ("download: bad status: " ++ response.Status))
    else
      match response.BodyErr with
      | some err => (response.Body, some ("download: " ++ err))
      | none => (response.Body, none)

/-! ## internal/movies/vault.go -/

/-- Vault is the primary entrypoint for reading from and writing to the movies
vault filesystem. -/
structure Vault where
  Dir : String
  AttachmentsDir : String
  MoviesDir : String
  ActorsDir : String
  ActorsCache : List String
  GenresDir : String
  GenresCache : List String

/-- The state a method of `*Vault` runs in: the vault its receiver points to
and the files on disk. -/
structure State where
  vault : Vault
  files : Files

/-- The call `os.Create(path)`: on success the file at `path` exists and is
empty, whether or not it existed before. -/
def osCreate (env : Env) (path : String) (s : State) : Option Error × State :=
  match env.osCreate s.files path with
  | some err => (some err, s)
  | none => (none, { s with files := Function.update s.files path (some []) })

/-- The call `io.Copy(f, &buff)` into the file just created at `path`: all of
`data` is written, or an error is returned after a part of it was. -/
def fileCopy (env : Env) (path : String) (data : Bytes) (s : State) : Option Error × State :=
  match env.fileCopy s.files path data with
  | some (err, n) => (some err, { s with files := Function.update s.files path (some (data.take n)) })
  | none => (none, { s with files := Function.update s.files path (some data) })

/-- CreateActor creates an empty markdown note for the named actor in the
vault's actors directory. -/
def CreateActor (env : Env) (name : String) (s : State) : Option Error × State :=
  let path := Join s.vault.ActorsDir (name ++ ".md")
  osCreate env path s

/-- CreateGenre creates an empty markdown note for the named genre in the
vault's genres directory. -/
def CreateGenre (env : Env) (name : String) (s : State) : Option Error × State :=
  let path := Join s.vault.GenresDir (name ++ ".md")
  osCreate env path s

/-- The method `downloadPoster`: the poster is downloaded into a buffer, the
file is created in the attachments directory and the buffer copied to it. -/
def downloadPoster (env : Env) (filename : String) (movie : Movie) (s : State) :
    Option Error × State :=
  match Download env movie.PosterURL with
  | (_, some err) => (some ("download poster: " ++ err), s)
  | (buff, none) =>
    let path := Join s.vault.AttachmentsDir filename
    match osCreate env path s with
    | (some err, s1) => (some ("download poster: " ++ err), s1)
    | (none, s1) =>
      match fileCopy env path buff s1 with
      | (some err, s2) => (some ("download poster: " ++ err), s2)
      | (none, s2) => (none, s2)

/-- Write renders the movie note as an Obsidian markdown document with YAML
frontmatter and writes it to w, here the file just created at `path`.  The
document is built in a buffer first; an error of the encoder or the template
leaves the file as it is. -/
def MovieNote.Write (env : Env) (mn : MovieNote) (path : String) (s : State) :
    Option Error × State :=
  match env.render mn with
  | .error err => (some err, s)
  | .ok buff =>
    match fileCopy env path buff s with
    | (some err, s1) => (some ("write: " ++ err), s1)
    | (none, s1) => (none, s1)

/-- The `return` statement a call of `CreateMovie` leaves by: the one after
`downloadPoster`, the one in the cast loop (with the position of the actor
among the selected ones), the one in the genre loop (with the position of the
genre in `movie.Genres`), the ones after `os.Create` and `note.Write`, or the
last one. -/
inductive Exit where
  | posterFailed
  | actorFailed (i : Nat)
  | genreFailed (k : Nat)
  | createFailed
  | writeFailed
  | done
  deriving DecidableEq

/-- What a call of `CreateMovie` leaves behind: the error returned, the
statement it returned by, the value of its local variable `note` then (`none`
before the variable is assigned), and the state. -/
structure CreateMovieResult where
  err : Option Error
  exit : Exit
  note : Option MovieNote
  state : State

/-- The loop `for _, actor := range filterCast(...)` of `CreateMovie`, from the
selected actor at position `i` on. -/
def CreateMovie.castLoop (env : Env) :
    List String → Nat → MovieNote → State → Option (Error × Nat) × MovieNote × State
  | [], _, note, s => (none, note, s)
  | actor :: rest, i, note, s =>
    let note := { note with Cast := note.Cast ++ [Link.mk actor] }
    match CreateActor env actor s with
    | (some err, s1) => (some ("create movie: " ++ err, i), note, s1)
    | (none, s1) => CreateMovie.castLoop env rest (i + 1) note s1

/-- The loop `for _, genre := range movie.Genres` of `CreateMovie`, from the
genre at position `k` on. -/
def CreateMovie.genreLoop (env : Env) :
    List String → Nat → MovieNote → State → Option (Error × Nat) × MovieNote × State
  | [], _, note, s => (none, note, s)
  | genre :: rest, k, note, s =>
    let note := { note with Genres := note.Genres ++ [Link.mk genre] }
    match CreateGenre env genre s with
    | (some err, s1) => (some ("create movie: " ++ err, k), note, s1)
    | (none, s1) => CreateMovie.genreLoop env rest (k + 1) note s1

/-- The value `&MovieNote{...}` that `CreateMovie` assigns to `note`, with
`title` and `posterFilename` the local variables of these names; the fields the
literal leaves out have their zero value. -/
def CreateMovie.newNote (movie : Movie) (title posterFilename : String) : MovieNote :=
  { IMDBID := movie.IMDBID
    LastWatched := ""
    Owned := false
    Playlists := [Link.mk "Newly Added"]
    TMDBID := movie.TMDBID
    Cast := []
    Collection := Link.mk (SanitizeFilename movie.Collection)
    Genres := []
    IMDBURL := "https://m.imdb.com/title/" ++ movie.IMDBID
    Poster := Link.mk posterFilename
    ReleaseDate := movie.ReleaseDate
    Runtime := movie.Runtime
    Synopsis := movie.Synopsis
    Title := title
    TMDBURL := "https://www.themoviedb.org/movie/" ++ toString movie.TMDBID }

/-- CreateMovie writes a complete movie note to the vault, including the
poster image and any new actor and genre notes. -/
def CreateMovie (env : Env) (movie : Movie) (s : State) : CreateMovieResult :=
  let title := SanitizeFilename movie.Title
  let path := Join s.vault.MoviesDir (title ++ ".md")
  let posterFilename := title ++ ".jpg"
  match downloadPoster env posterFilename movie s with
  | (some err, s1) => ⟨some ("create movie: " ++ err), .posterFailed, none, s1⟩
  | (none, s1) =>
    let note := CreateMovie.newNote movie title posterFilename
    match CreateMovie.castLoop env (filterCast movie.Cast s1.vault.ActorsCache) 0 note s1 with
    | (some (err, i), note, s2) => ⟨some err, .actorFailed i, some note, s2⟩
    | (none, note, s2) =>
      match CreateMovie.genreLoop env movie.Genres 0 note s2 with
      | (some (err, k), note, s3) => ⟨some err, .genreFailed k, some note, s3⟩
      | (none, note, s3) =>
        match osCreate env path s3 with
        | (some err, s4) => ⟨some ("create movie: " ++ err), .createFailed, some note, s4⟩
        | (none, s4) =>
          match MovieNote.Write env note path s4 with
          | (some err, s5) => ⟨some ("create movie: " ++ err), .writeFailed, some note, s5⟩
          | (none, s5) => ⟨none, .done, some note, s5⟩

/-! ## internal/tmdb/tmdb.go -/

/-- The fields `Client.SearchMovie` reads of an element of `resp.Results`, the
search response of the package `github.com/haleyrc/lib/tmdb`. -/
structure LibSearchResult where
  ID : Int
  Overview : String
  Popularity : Float64
  ReleaseDate : String
  Title : String
  VoteCount : Int

/-- The loop `for _, res := range resp.Results` of `Client.SearchMovie`, with
`results` the slice built so far. -/
def Client.SearchMovie.loop :
    List LibSearchResult → List MovieSearchResult → List MovieSearchResult
  | [], results => results
  | res :: rest, results =>
    if res.Popularity.lt Float64.one || decide (res.VoteCount < 100) then
      Client.SearchMovie.loop rest results
    else
      Client.SearchMovie.loop rest
        (results ++ [{ ID := res.ID, ReleaseDate := res.ReleaseDate,
                       Synopsis := res.Overview, Title := res.Title }])

/-- SearchMovie returns a list of results that match the provided title.  Its
first argument is the search of the wrapped client, `c.c.SearchMovie`: an error
or the results of the response. -/
def Client.SearchMovie (libSearch : String → Except Error (List LibSearchResult))
    (title : String) : List MovieSearchResult × Option Error :=
  match libSearch title with
  | .error err => ([], some ("search movie: " ++ err))
  | .ok respResults => (Client.SearchMovie.loop respResults [], none)

/-! ## internal/movies/movies.go, cmd/movies/new.go -/

/-- TMDBClient defines the TMDB operations required by the movies package.  An
implementation has a state of some type `σ`; a method returns the pair of Go
results (`none` for a nil pointer and for a nil error) and the next state. -/
structure TMDBClient (σ : Type) where
  GetMovie : Int → σ → (Option Movie × Option Error) × σ
  SearchMovie : String → σ → (List MovieSearchResult × Option Error) × σ

/-- A call of a method of the client. -/
inductive Call where
  | GetMovie (id : Int)
  | SearchMovie (title : String)
  deriving DecidableEq

/-- The client's state during a run, with the calls made to it so far, oldest
first. -/
structure Session (σ : Type) where
  client : σ
  calls : List Call

/-- What a function returning `(*movies.Movie, error)` does: it returns a movie
and a nil error, or a nil movie and an error, or it panics. -/
inductive Outcome where
  | ok (movie : Movie)
  | error (err : Error)
  | panic

/-- The function `getMovie` of new.go.  After a call without error the summary
it logs reads the fields of the movie, which panics on a nil pointer. -/
def getMovie {σ : Type} (c : TMDBClient σ) (id : Int) (s : Session σ) : Outcome × Session σ :=
  let r := c.GetMovie id s.client
  let s1 : Session σ := { client := r.2, calls := s.calls ++ [Call.GetMovie id] }
  match r.1 with
  | (_, some err) => (.error ("get movie: " ++ err), s1)
  | (none, none) => (.panic, s1)
  | (some movie, none) => (.ok movie, s1)

/-- The function `searchMovie` of new.go. -/
def searchMovie {σ : Type} (c : TMDBClient σ) (title : String) (s : Session σ) :
    Outcome × Session σ :=
  let r := c.SearchMovie title s.client
  let s1 : Session σ := { client := r.2, calls := s.calls ++ [Call.SearchMovie title] }
  match r.1 with
  | (_, some err) => (.error err, s1)
  | (results, none) =>
    if results.length = 0 then
      (.error ("no results for movie: " ++ title), s1)
    else if results.length > 1 then
      (.error "multiple results found: run again with the --id flag", s1)
    else
      match results.head? with
      | some result => getMovie c result.ID s1
      | none => (.panic, s1)

/-- The function `getOrSearchMovie` of new.go. -/
def getOrSearchMovie {σ : Type} (c : TMDBClient σ) (id : Int) (title : String)
    (s : Session σ) : Outcome × Session σ :=
  if id = 0 then searchMovie c title s else getMovie c id s

/-- The characters the specification calls forbidden in a filename:
`/ \ : * ? " < >`. -/
def forbiddenChars : List Char :=
  ['/', Char.ofNat 92, ':', '*', '?', Char.ofNat 34, '<', '>']

/-- The old strings of the replacer of `SanitizeFilename`. -/
def replacedChars : List Char := replacerPairs.map Prod.fst

/-- A list of code points has no leading and no trailing white space: its
first code point, when there is one, is not white space, and neither is its
last. -/
def NoOuterSpace (cs : List Char) : Prop :=
  cs.head?.any IsSpace = false ∧ cs.getLast?.any IsSpace = false

instance (cs : List Char) : Decidable (NoOuterSpace cs) := by
  unfold NoOuterSpace; infer_instance

/-- The test the specification gives for keeping a cast member: billing order
below 10, or popularity at least 1.0, or a name that is already known. -/
def Selected (knownActors : List String) (a : Actor) : Prop :=
  a.Order < 10 ∨ a.Popularity.ge Float64.one = true ∨ a.Name ∈ knownActors

instance (knownActors : List String) (a : Actor) : Decidable (Selected knownActors a) := by
  unfold Selected; infer_instance

/-- Between two states the vault is the same and no file has gone. -/
def Extends (s t : State) : Prop :=
  t.vault = s.vault ∧ ∀ q, s.files q ≠ none → t.files q ≠ none

/-! ## Sample runs -/

/-- A vault rooted at `v` whose directories hold no file, with the caches
empty as `LoadVault` leaves them over such directories. -/
def emptyVault : State :=
  { vault :=
      { Dir := "v"
        AttachmentsDir := Join "v" "attachments"
        MoviesDir := Join "v" "movies"
        ActorsDir := Join "v" "actors"
        ActorsCache := []
        GenresDir := Join "v" "genres"
        GenresCache := [] }
    files := fun _ => none }

/-- Surroundings in which the poster is served and every file operation
succeeds, except that `os.Create` fails on the paths listed. -/
def sampleEnv (failing : List String) : Env :=
  { httpGet := fun _ => .ok { StatusCode := 200, Status := "200 OK", Body := [255, 216, 255],
                              BodyErr := none }
    osCreate := fun _ path =>
      if path ∈ failing then some ("open " ++ path ++ ": no such file or directory") else none
    fileCopy := fun _ _ _ => none
    render := fun mn => .ok (mn.Title.data.map (fun _ => 0)) }

/-- The movie of the end-to-end example of the specification, with a second
genre. -/
def exampleFilm : Movie :=
  { Cast := [{ Name := "X", Order := 0, Popularity := .finite 0 }]
    Collection := ""
    Genres := ["Drama", "Sci-Fi/Fantasy"]
    IMDBID := "tt0000001"
    PosterURL := "https://image.example/p.jpg"
    ReleaseDate := "1999-10-15"
    Runtime := 100
    Synopsis := "A film."
    TMDBID := 1
    Title := "Example Film" }

/-- A second movie, in which the actor `X` of the first is billed fifteenth
with a popularity below 1.0. -/
def secondFilm : Movie :=
  { exampleFilm with
    Cast := [{ Name := "X", Order := 15, Popularity := .finite 0 }]
    Genres := ["Drama"]
    Title := "Second Film" }

/-- A movie whose first genre name leads from the genres directory to the
movie's own note. -/
def crossingFilm : Movie :=
  { exampleFilm with
    Cast := []
    Genres := ["../movies/T", "Sci-Fi/Fantasy"]
    Title := "T" }

/-! ## Theorems -/

/-! ### The filename sanitizer -/

theorem replaceChar_of_not_mem (pairs : List (Char × List Char)) (c : Char)
    (h : c ∉ pairs.map Prod.fst) : replaceChar pairs c = [c] := by
  induction pairs with
  | nil => rfl
  | cons pr rest ih =>
    obtain ⟨old, new⟩ := pr
    simp only [List.map_cons, List.mem_cons, not_or] at h
    simp [replaceChar, h.1, ih h.2]

theorem Replace_of_not_mem (pairs : List (Char × List Char)) (cs : List Char)
    (h : ∀ c ∈ cs, c ∉ pairs.map Prod.fst) : Replace pairs cs = cs := by
  induction cs with
  | nil => rfl
  | cons c cs ih =>
    have hc := replaceChar_of_not_mem pairs c (h c (List.mem_cons_self _ _))
    have hcs := ih (fun d hd => h d (List.mem_cons_of_mem _ hd))
    simp [Replace, hc, hcs]

theorem replaceChar_sanitize_not_mem (c d : Char) (hd : d ∈ replaceChar replacerPairs c) :
    d ∉ replacedChars := by
  by_cases hc : c ∈ replacedChars
  · simp only [replacedChars, replacerPairs, List.map_cons, List.map_nil, List.mem_cons,
      List.mem_singleton, List.not_mem_nil, or_false] at hc
    rcases hc with h | h | h | h | h | h | h | h | h | h <;> subst h <;>
      revert d <;> decide
  · rw [replaceChar_of_not_mem _ _ hc, List.mem_singleton] at hd
    exact hd ▸ hc

theorem Replace_sanitize_not_mem (cs : List Char) :
    ∀ d ∈ Replace replacerPairs cs, d ∉ replacedChars := by
  induction cs with
  | nil => intro d hd; simp [Replace] at hd
  | cons c cs ih =>
    intro d hd
    simp only [Replace, List.mem_append] at hd
    rcases hd with hd | hd
    · exact replaceChar_sanitize_not_mem c d hd
    · exact ih d hd

theorem mem_of_mem_trimSpaceChars (cs : List Char) (c : Char)
    (h : c ∈ trimSpaceChars cs) : c ∈ cs := by
  have h1 : c ∈ (cs.dropWhile IsSpace).rdropWhile IsSpace := h
  exact (List.dropWhile_suffix IsSpace).subset
    ((List.rdropWhile_prefix IsSpace (cs.dropWhile IsSpace)).subset h1)

theorem trimSpaceChars_of_noOuterSpace (cs : List Char) (h : NoOuterSpace cs) :
    trimSpaceChars cs = cs := by
  have h1 : cs.dropWhile IsSpace = cs := by
    cases cs with
    | nil => rfl
    | cons a as =>
      have : IsSpace a = false := by simpa using h.1
      simp [List.dropWhile, this]
  show (cs.dropWhile IsSpace).rdropWhile IsSpace = cs
  rw [h1, List.rdropWhile_eq_self_iff]
  intro hl
  have := h.2
  rw [List.getLast?_eq_getLast _ hl] at this
  simpa using this

theorem noOuterSpace_trimSpaceChars (cs : List Char) : NoOuterSpace (trimSpaceChars cs) := by
  have hpre : trimSpaceChars cs <+: cs.dropWhile IsSpace :=
    List.rdropWhile_prefix IsSpace (cs.dropWhile IsSpace)
  constructor
  · obtain ⟨t, ht⟩ := hpre
    cases hr : trimSpaceChars cs with
    | nil => rfl
    | cons a as =>
      rw [hr] at ht
      have hne : cs.dropWhile IsSpace ≠ [] := by rw [← ht]; simp
      have := List.head_dropWhile_not IsSpace cs hne
      simpa [← ht] using this
  · by_cases hne : (cs.dropWhile IsSpace).rdropWhile IsSpace = []
    · have : trimSpaceChars cs = [] := hne
      rw [this]; rfl
    · have hnot := List.rdropWhile_last_not IsSpace (cs.dropWhile IsSpace) hne
      show (((cs.dropWhile IsSpace).rdropWhile IsSpace).getLast?).any IsSpace = false
      rw [List.getLast?_eq_getLast _ hne]
      simpa using hnot

theorem SanitizeFilename_data (s : String) :
    (SanitizeFilename s).data = trimSpaceChars (Replace replacerPairs s.data) := rfl

theorem SanitizeFilename_of_clean (s : String)
    (h1 : ∀ c ∈ s.data, c ∉ replacedChars) (h2 : NoOuterSpace s.data) :
    SanitizeFilename s = s := by
  have hd : (SanitizeFilename s).data = s.data := by
    rw [SanitizeFilename_data, Replace_of_not_mem replacerPairs s.data h1,
      trimSpaceChars_of_noOuterSpace _ h2]
  exact String.ext hd

theorem SanitizeFilename_not_mem_replaced (s : String) :
    ∀ c ∈ (SanitizeFilename s).data, c ∉ replacedChars := by
  intro c hc
  rw [SanitizeFilename_data] at hc
  exact Replace_sanitize_not_mem s.data c (mem_of_mem_trimSpaceChars _ c hc)

/-! ### The vault -/

theorem Extends.refl (s : State) : Extends s s := ⟨rfl, fun _ h => h⟩

theorem Extends.trans {s t u : State} (h1 : Extends s t) (h2 : Extends t u) : Extends s u :=
  ⟨h2.1.trans h1.1, fun q h => h2.2 q (h1.2 q h)⟩

theorem osCreate_extends (env : Env) (path : String) (s : State) :
    Extends s (osCreate env path s).2 := by
  unfold osCreate
  cases env.osCreate s.files path with
  | some err => exact Extends.refl s
  | none =>
    refine ⟨rfl, fun q h => ?_⟩
    by_cases hq : q = path
    · subst hq; simp
    · simpa [Function.update_noteq hq] using h

theorem osCreate_ok (env : Env) (path : String) (s : State)
    (h : (osCreate env path s).1 = none) : (osCreate env path s).2.files path = some [] := by
  unfold osCreate at h ⊢
  cases hc : env.osCreate s.files path with
  | some err => rw [hc] at h; simp at h
  | none => simp

theorem fileCopy_extends (env : Env) (path : String) (data : Bytes) (s : State) :
    Extends s (fileCopy env path data s).2 := by
  unfold fileCopy
  cases env.fileCopy s.files path data with
  | some r =>
    refine ⟨rfl, fun q h => ?_⟩
    by_cases hq : q = path
    · subst hq; simp
    · simpa [Function.update_noteq hq] using h
  | none =>
    refine ⟨rfl, fun q h => ?_⟩
    by_cases hq : q = path
    · subst hq; simp
    · simpa [Function.update_noteq hq] using h

theorem fileCopy_exists (env : Env) (path : String) (data : Bytes) (s : State) :
    (fileCopy env path data s).2.files path ≠ none := by
  unfold fileCopy
  cases env.fileCopy s.files path data with
  | some r => simp
  | none => simp

theorem downloadPoster_extends (env : Env) (filename : String) (movie : Movie) (s : State) :
    Extends s (downloadPoster env filename movie s).2 := by
  unfold downloadPoster
  rcases Download env movie.PosterURL with ⟨buff, _ | err⟩
  · simp only
    have h1 := osCreate_extends env (Join s.vault.AttachmentsDir filename) s
    rcases hc : osCreate env (Join s.vault.AttachmentsDir filename) s with ⟨_ | e1, s1⟩
    · rw [hc] at h1
      simp only
      have h2 := fileCopy_extends env (Join s.vault.AttachmentsDir filename) buff s1
      rcases hw : fileCopy env (Join s.vault.AttachmentsDir filename) buff s1 with ⟨_ | e2, s2⟩
      · rw [hw] at h2; exact h1.trans h2
      · rw [hw] at h2; exact h1.trans h2
    · rw [hc] at h1; exact h1
  · exact Extends.refl s

theorem downloadPoster_ok (env : Env) (filename : String) (movie : Movie) (s : State)
    (h : (downloadPoster env filename movie s).1 = none) :
    (downloadPoster env filename movie s).2.files (Join s.vault.AttachmentsDir filename)
      ≠ none := by
  unfold downloadPoster at h ⊢
  rcases hdl : Download env movie.PosterURL with ⟨buff, _ | err⟩
  · rw [hdl] at h
    simp only at h ⊢
    rcases hc : osCreate env (Join s.vault.AttachmentsDir filename) s with ⟨_ | e1, s1⟩
    · rw [hc] at h
      simp only at h ⊢
      have h2 := fileCopy_exists env (Join s.vault.AttachmentsDir filename) buff s1
      rcases hw : fileCopy env (Join s.vault.AttachmentsDir filename) buff s1 with ⟨_ | e2, s2⟩
      · rw [hw] at h2; exact h2
      · rw [hw] at h; simp at h
    · rw [hc] at h; simp at h
  · rw [hdl] at h; simp at h

theorem castLoop_extends (env : Env) (l : List String) :
    ∀ (i : Nat) (note : MovieNote) (s : State),
      Extends s (CreateMovie.castLoop env l i note s).2.2 := by
  induction l with
  | nil => intro i note s; exact Extends.refl s
  | cons a rest ih =>
    intro i note s
    unfold CreateMovie.castLoop
    have h1 : Extends s (CreateActor env a s).2 := osCreate_extends env _ s
    rcases hc : CreateActor env a s with ⟨_ | err, s1⟩
    · rw [hc] at h1
      exact h1.trans (ih _ _ s1)
    · rw [hc] at h1; exact h1

theorem castLoop_note (env : Env) (l : List String) :
    ∀ (i : Nat) (note : MovieNote) (s : State),
      ∃ cast, (CreateMovie.castLoop env l i note s).2.1 = { note with Cast := cast } := by
  induction l with
  | nil => intro i note s; exact ⟨note.Cast, rfl⟩
  | cons a rest ih =>
    intro i note s
    unfold CreateMovie.castLoop
    rcases hc : CreateActor env a s with ⟨_ | err, s1⟩
    · simp only
      obtain ⟨cast, h⟩ := ih (i + 1) { note with Cast := note.Cast ++ [Link.mk a] } s1
      exact ⟨cast, h⟩
    · exact ⟨_, rfl⟩

theorem genreLoop_extends (env : Env) (l : List String) :
    ∀ (k : Nat) (note : MovieNote) (s : State),
      Extends s (CreateMovie.genreLoop env l k note s).2.2 := by
  induction l with
  | nil => intro k note s; exact Extends.refl s
  | cons g rest ih =>
    intro k note s
    unfold CreateMovie.genreLoop
    have h1 : Extends s (CreateGenre env g s).2 := osCreate_extends env _ s
    rcases hc : CreateGenre env g s with ⟨_ | err, s1⟩
    · rw [hc] at h1
      exact h1.trans (ih _ _ s1)
    · rw [hc] at h1; exact h1

theorem genreLoop_note (env : Env) (l : List String) :
    ∀ (k : Nat) (note : MovieNote) (s : State),
      ∃ genres, (CreateMovie.genreLoop env l k note s).2.1 = { note with Genres := genres } := by
  induction l with
  | nil => intro k note s; exact ⟨note.Genres, rfl⟩
  | cons g rest ih =>
    intro k note s
    unfold CreateMovie.genreLoop
    rcases hc : CreateGenre env g s with ⟨_ | err, s1⟩
    · simp only
      obtain ⟨genres, h⟩ := ih (k + 1) { note with Genres := note.Genres ++ [Link.mk g] } s1
      exact ⟨genres, h⟩
    · exact ⟨_, rfl⟩

theorem genreLoop_failed (env : Env) (l : List String) :
    ∀ (i : Nat) (note : MovieNote) (s : State) (err : Error) (k : Nat),
      (CreateMovie.genreLoop env l i note s).1 = some (err, k) →
      ∃ j, k = i + j ∧ j < l.length ∧
        (∀ m, m < j → ∃ g, l[m]? = some g ∧
          (CreateMovie.genreLoop env l i note s).2.2.files
            (Join s.vault.GenresDir (g ++ ".md")) ≠ none) := by
  induction l with
  | nil => intro i note s err k h; simp [CreateMovie.genreLoop] at h
  | cons g rest ih =>
    intro i note s err k h
    unfold CreateMovie.genreLoop at h ⊢
    have hok : (CreateGenre env g s).1 = none →
        (CreateGenre env g s).2.files (Join s.vault.GenresDir (g ++ ".md")) = some [] :=
      osCreate_ok env _ s
    have hv : (CreateGenre env g s).2.vault = s.vault := (osCreate_extends env _ s).1
    rcases hc : CreateGenre env g s with ⟨_ | e1, s1⟩
    · rw [hc] at h hok hv
      have hok1 : s1.files (Join s.vault.GenresDir (g ++ ".md")) = some [] := hok rfl
      simp only at h hv ⊢
      obtain ⟨j, hk, hj, hfiles⟩ := ih (i + 1) _ s1 err k h
      refine ⟨j + 1, by omega, by simp; omega, ?_⟩
      intro m hm
      cases m with
      | zero =>
        refine ⟨g, by simp, ?_⟩
        exact (genreLoop_extends env rest (i + 1) _ s1).2 _ (by rw [hok1]; simp)
      | succ m =>
        obtain ⟨g2, hg2, hf2⟩ := hfiles m (by omega)
        refine ⟨g2, by simpa using hg2, ?_⟩
        rw [hv] at hf2; exact hf2
    · rw [hc] at h
      simp only [Option.some.injEq, Prod.mk.injEq] at h
      refine ⟨0, by omega, by simp, ?_⟩
      intro m hm; omega

theorem Write_extends (env : Env) (mn : MovieNote) (path : String) (s : State) :
    Extends s (MovieNote.Write env mn path s).2 := by
  unfold MovieNote.Write
  cases env.render mn with
  | error err => exact Extends.refl s
  | ok buff =>
    simp only
    have h := fileCopy_extends env path buff s
    rcases hw : fileCopy env path buff s with ⟨_ | e, s1⟩
    · rw [hw] at h; exact h
    · rw [hw] at h; exact h

theorem CreateMovie_extends (env : Env) (movie : Movie) (s : State) :
    Extends s (CreateMovie env movie s).state := by
  have h1 := downloadPoster_extends env (SanitizeFilename movie.Title ++ ".jpg") movie s
  simp only [CreateMovie]
  split
  next err s1 hd => rw [hd] at h1; exact h1
  next s1 hd =>
    rw [hd] at h1
    have h2 := castLoop_extends env (filterCast movie.Cast s1.vault.ActorsCache) 0
      (CreateMovie.newNote movie (SanitizeFilename movie.Title)
        (SanitizeFilename movie.Title ++ ".jpg")) s1
    split
    next err i n1 s2 hcl => rw [hcl] at h2; exact h1.trans h2
    next n1 s2 hcl =>
      rw [hcl] at h2
      have h3 := genreLoop_extends env movie.Genres 0 n1 s2
      split
      next err k n2 s3 hgl => rw [hgl] at h3; exact (h1.trans h2).trans h3
      next n2 s3 hgl =>
        rw [hgl] at h3
        have h4 := osCreate_extends env
          (Join s.vault.MoviesDir (SanitizeFilename movie.Title ++ ".md")) s3
        split
        next err s4 hc => rw [hc] at h4; exact ((h1.trans h2).trans h3).trans h4
        next s4 hc =>
          rw [hc] at h4
          have h5 := Write_extends env n2
            (Join s.vault.MoviesDir (SanitizeFilename movie.Title ++ ".md")) s4
          split
          next err s5 hw => rw [hw] at h5; exact ((h1.trans h2).trans h3).trans (h4.trans h5)
          next s5 hw => rw [hw] at h5; exact ((h1.trans h2).trans h3).trans (h4.trans h5)

theorem CreateMovie_note_eq (env : Env) (movie : Movie) (s : State)
    (h : (downloadPoster env (SanitizeFilename movie.Title ++ ".jpg") movie s).1 = none) :
    ∃ cast genres, (CreateMovie env movie s).note =
      some { CreateMovie.newNote movie (SanitizeFilename movie.Title)
               (SanitizeFilename movie.Title ++ ".jpg") with Cast := cast, Genres := genres } := by
  simp only [CreateMovie]
  split
  next err s1 hd => rw [hd] at h; simp at h
  next s1 hd =>
    obtain ⟨cast, h2⟩ := castLoop_note env (filterCast movie.Cast s1.vault.ActorsCache) 0
      (CreateMovie.newNote movie (SanitizeFilename movie.Title)
        (SanitizeFilename movie.Title ++ ".jpg")) s1
    split
    next err i n1 s2 hcl =>
      rw [hcl] at h2
      exact ⟨cast, [], by rw [show n1 = _ from h2]; rfl⟩
    next n1 s2 hcl =>
      rw [hcl] at h2
      obtain ⟨genres, h3⟩ := genreLoop_note env movie.Genres 0 n1 s2
      refine ⟨cast, genres, ?_⟩
      have hn1 : n1 = { CreateMovie.newNote movie (SanitizeFilename movie.Title)
          (SanitizeFilename movie.Title ++ ".jpg") with Cast := cast } := h2
      split
      next err k n2 s3 hgl =>
        rw [hgl] at h3
        rw [show n2 = _ from h3, hn1]
      next n2 s3 hgl =>
        rw [hgl] at h3
        have hn2 : n2 = { CreateMovie.newNote movie (SanitizeFilename movie.Title)
            (SanitizeFilename movie.Title ++ ".jpg") with Cast := cast, Genres := genres } := by
          rw [show n2 = _ from h3, hn1]
        split
        next err s4 hc => rw [hn2]
        next s4 hc =>
          split
          next err s5 hw => rw [hn2]
          next s5 hw => rw [hn2]

theorem CreateMovie_genreFailed_inv (env : Env) (movie : Movie) (s : State) (k : Nat)
    (h : (CreateMovie env movie s).exit = Exit.genreFailed k) :
    ∃ s1 n1 s2 err,
      downloadPoster env (SanitizeFilename movie.Title ++ ".jpg") movie s = (none, s1) ∧
      CreateMovie.castLoop env (filterCast movie.Cast s1.vault.ActorsCache) 0
        (CreateMovie.newNote movie (SanitizeFilename movie.Title)
          (SanitizeFilename movie.Title ++ ".jpg")) s1 = (none, n1, s2) ∧
      (CreateMovie.genreLoop env movie.Genres 0 n1 s2).1 = some (err, k) ∧
      (CreateMovie env movie s).err = some err ∧
      (CreateMovie env movie s).state = (CreateMovie.genreLoop env movie.Genres 0 n1 s2).2.2 := by
  simp only [CreateMovie] at h ⊢
  split at h
  next err s1 hd => simp at h
  next s1 hd =>
    split at h
    next err i n1 s2 hcl => simp at h
    next n1 s2 hcl =>
      refine ⟨s1, n1, s2, ?_⟩
      rw [hd]
      simp only
      rw [hcl]
      simp only
      split at h
      next err k2 n2 s3 hgl =>
        simp only [Exit.genreFailed.injEq] at h
        subst h
        refine ⟨err, trivial, trivial, ?_, ?_⟩
        · rw [hgl]
        · rw [hgl]
          exact ⟨rfl, rfl⟩
      next n2 s3 hgl =>
        exfalso
        split at h
        next err s4 hc => simp at h
        next s4 hc =>
          split at h
          next err s5 hw => simp at h
          next s5 hw => simp at h

theorem filterCast_loop_eq (knownActors : List String) (cast : List Actor) :
    ∀ names, filterCast.loop knownActors cast names =
      names ++ (cast.filter (fun a => decide (Selected knownActors a))).map Actor.Name := by
  induction cast with
  | nil => intro names; simp [filterCast.loop]
  | cons star rest ih =>
    intro names
    unfold filterCast.loop
    by_cases h1 : star.Order < 10
    · simp [h1, ih, Selected]
    · by_cases h2 : star.Popularity.ge Float64.one = true
      · simp [h1, h2, ih, Selected]
      · by_cases h3 : star.Name ∈ knownActors
        · simp [h1, h2, h3, ih, Selected]
        · simp [h1, h2, h3, ih, Selected]

/-- C2: for every string `s`, `SanitizeFilename s` contains none of the
characters `/ \ : * ? " < >`. -/
theorem SanitizeFilename_no_forbidden (s : String) :
    '/' ∉ (SanitizeFilename s).data ∧ Char.ofNat 92 ∉ (SanitizeFilename s).data ∧
    ':' ∉ (SanitizeFilename s).data ∧ '*' ∉ (SanitizeFilename s).data ∧
    '?' ∉ (SanitizeFilename s).data ∧ Char.ofNat 34 ∉ (SanitizeFilename s).data ∧
    '<' ∉ (SanitizeFilename s).data ∧ '>' ∉ (SanitizeFilename s).data := by
  have h := SanitizeFilename_not_mem_replaced s
  refine ⟨?_, ?_, ?_, ?_, ?_, ?_, ?_, ?_⟩ <;>
    exact fun hc => h _ hc (by decide)

/-- C3, as the specification states it, fails: the string `a.b` contains none
of `/ \ : * ? " < >` and has no leading or trailing white space, yet
`SanitizeFilename` removes its full stop. -/
theorem SanitizeFilename_fixed_counterexample :
    (∀ c ∈ "a.b".data, c ∉ forbiddenChars) ∧ NoOuterSpace "a.b".data ∧
    SanitizeFilename "a.b" = "ab" ∧ SanitizeFilename "a.b" ≠ "a.b" := by
  decide

/-- C3, amended: a string that contains none of the ten characters the
replacer rewrites (`/ \ : * ? " < > | .`) and has no leading or trailing white
space is returned unchanged by `SanitizeFilename`. -/
theorem SanitizeFilename_fixed (s : String)
    (h1 : ∀ c ∈ s.data, c ∉ replacedChars) (h2 : NoOuterSpace s.data) :
    SanitizeFilename s = s :=
  SanitizeFilename_of_clean s h1 h2

theorem SanitizeFilename_fixed_witness :
    (∀ c ∈ "Se7en - A Tale".data, c ∉ replacedChars) ∧ NoOuterSpace "Se7en - A Tale".data ∧
    SanitizeFilename "Se7en - A Tale" = "Se7en - A Tale" :=
  ⟨by decide, by decide, SanitizeFilename_fixed "Se7en - A Tale" (by decide) (by decide)⟩

/-- C4: `SanitizeFilename` is idempotent: applying it to its own result
changes nothing. -/
theorem SanitizeFilename_idempotent (s : String) :
    SanitizeFilename (SanitizeFilename s) = SanitizeFilename s :=
  SanitizeFilename_of_clean _ (SanitizeFilename_not_mem_replaced s)
    (noOuterSpace_trimSpaceChars _)

/-- C10: for every name, the empty one included, `Link(name).String()` is the
name between `[[` and `]]`, and `MarshalYAML` returns that same string and a
nil error. -/
theorem Link_String_eq (name : String) :
    (Link.mk name).String = "[[" ++ name ++ "]]" ∧
    ((Link.mk name).String).data = '[' :: '[' :: (name.data ++ [']', ']']) ∧
    (Link.mk "").String = "[[]]" ∧
    (Link.mk name).MarshalYAML = ("[[" ++ name ++ "]]", none) := by
  refine ⟨rfl, ?_, by decide, rfl⟩
  simp [Link.String, String.data_append]

/-- C1: `filterCast` returns the names, in input order, of exactly the actors
with `Order < 10`, or `Popularity >= 1.0`, or a name among the known actors; an
actor for which none of the three holds is left out. -/
theorem filterCast_eq_filter (cast : List Actor) (knownActors : List String) :
    filterCast cast knownActors =
      (cast.filter (fun a => decide (Selected knownActors a))).map Actor.Name ∧
    filterCast [⟨"A", 0, .finite (1/10)⟩, ⟨"B", 15, .finite (2/10)⟩, ⟨"C", 20, .finite 2⟩] ["B"]
      = ["A", "B", "C"] := by
  constructor
  · simp [filterCast, filterCast_loop_eq]
  · simp [filterCast, filterCast.loop, Float64.ge, Float64.one]

theorem Client_SearchMovie_loop_eq (resp : List LibSearchResult) :
    ∀ results, Client.SearchMovie.loop resp results =
      results ++ (resp.filter (fun res =>
          !(res.Popularity.lt Float64.one || decide (res.VoteCount < 100)))).map
        (fun res => { ID := res.ID, ReleaseDate := res.ReleaseDate,
                      Synopsis := res.Overview, Title := res.Title }) := by
  induction resp with
  | nil => intro results; simp [Client.SearchMovie.loop]
  | cons res rest ih =>
    intro results
    by_cases h2 : res.VoteCount < 100 <;>
      cases h1 : res.Popularity.lt Float64.one <;>
      simp [Client.SearchMovie.loop, h1, h2, ih]

/-- C9: the code departs from the specification and from the comment of
`Client.SearchMovie`.  A result with popularity 0.5 and 1000 votes is not one
with popularity below 1.0 and fewer than 100 votes, yet it is omitted: the
test of the loop is a disjunction. -/
theorem Client_SearchMovie_omits_voted :
    ¬ (Float64.lt (.finite (1/2)) Float64.one = true ∧ (1000 : Int) < 100) ∧
    Client.SearchMovie
      (fun _ => .ok [{ ID := 7, Overview := "o", Popularity := .finite (1/2),
                       ReleaseDate := "1999-10-15", Title := "T", VoteCount := 1000 }])
      "T" = ([], none) := by
  constructor
  · simp
  · simp [Client.SearchMovie, Client.SearchMovie.loop, Float64.lt, Float64.one]
    norm_num

/-- C8: when the client's `SearchMovie` returns a list whose length is not 1, or
an error, `searchMovie` returns an error and its only call to the client is that
search; when it returns exactly one result and no error, `searchMovie` is
`getMovie` on the ID of that result, the second and last call to the client. -/
theorem searchMovie_only_single_result {σ : Type} (c : TMDBClient σ) (title : String)
    (s : Session σ) :
    (((c.SearchMovie title s.client).1.1.length ≠ 1 ∨ (c.SearchMovie title s.client).1.2 ≠ none) →
      (∃ err, (searchMovie c title s).1 = .error err) ∧
      (searchMovie c title s).2.calls = s.calls ++ [Call.SearchMovie title]) ∧
    (∀ result, (c.SearchMovie title s.client).1 = ([result], none) →
      searchMovie c title s =
        getMovie c result.ID
          ⟨(c.SearchMovie title s.client).2, s.calls ++ [Call.SearchMovie title]⟩ ∧
      (searchMovie c title s).2.calls =
        s.calls ++ [Call.SearchMovie title, Call.GetMovie result.ID]) := by
  constructor
  · intro h
    rcases hr : (c.SearchMovie title s.client).1 with ⟨results, err⟩
    rw [hr] at h
    cases err with
    | some e => simp [searchMovie, hr]
    | none =>
      simp only [ne_eq, not_true_eq_false, or_false] at h
      by_cases h0 : results.length = 0
      · simp [searchMovie, hr, h0]
      · have h1 : results.length > 1 := by omega
        simp [searchMovie, hr, h0, h1]
  · intro result hr
    simp [searchMovie, hr, getMovie]
    split <;> simp

theorem searchMovie_only_single_result_witness :
    ((∃ err, (searchMovie
        { GetMovie := fun _ n => ((none, some "unexpected"), n + 1),
          SearchMovie := fun _ n =>
            (([⟨1, "1999", "a", "Heat"⟩, ⟨2, "2004", "b", "Heat"⟩], none), n + 1) }
        "Heat" ⟨(0 : Nat), []⟩).1 = .error err) ∧
      (searchMovie
        { GetMovie := fun _ n => ((none, some "unexpected"), n + 1),
          SearchMovie := fun _ n =>
            (([⟨1, "1999", "a", "Heat"⟩, ⟨2, "2004", "b", "Heat"⟩], none), n + 1) }
        "Heat" ⟨(0 : Nat), []⟩).2.calls = [Call.SearchMovie "Heat"]) ∧
    (searchMovie
        { GetMovie := fun id n => ((some { exampleFilm with TMDBID := id }, none), n + 1),
          SearchMovie := fun _ n => (([⟨949, "1995", "a", "Heat"⟩], none), n + 1) }
        "Heat" ⟨(0 : Nat), []⟩).2.calls = [Call.SearchMovie "Heat", Call.GetMovie 949] :=
  ⟨(searchMovie_only_single_result
      { GetMovie := fun _ n => ((none, some "unexpected"), n + 1),
        SearchMovie := fun _ n =>
          (([⟨1, "1999", "a", "Heat"⟩, ⟨2, "2004", "b", "Heat"⟩], none), n + 1) }
      "Heat" ⟨(0 : Nat), []⟩).1 (Or.inl (by decide)),
   ((searchMovie_only_single_result
      { GetMovie := fun id n => ((some { exampleFilm with TMDBID := id }, none), n + 1),
        SearchMovie := fun _ n => (([⟨949, "1995", "a", "Heat"⟩], none), n + 1) }
      "Heat" ⟨(0 : Nat), []⟩).2 ⟨949, "1995", "a", "Heat"⟩ rfl).2⟩

/-- C5: when the poster download succeeds, the note `CreateMovie` builds has
`Owned` false, the single playlist link `Newly Added`, the sanitized title as
`Title`, the link to the sanitized title followed by `.jpg` as `Poster`, and
the link to the sanitized collection as `Collection`, which is the link with
the empty name when the movie has no collection. -/
theorem CreateMovie_note_fields (env : Env) (movie : Movie) (s : State)
    (h : (downloadPoster env (SanitizeFilename movie.Title ++ ".jpg") movie s).1 = none) :
    ∃ n, (CreateMovie env movie s).note = some n ∧
      n.Owned = false ∧
      n.Playlists = [Link.mk "Newly Added"] ∧
      n.Title = SanitizeFilename movie.Title ∧
      n.Poster = Link.mk (SanitizeFilename movie.Title ++ ".jpg") ∧
      n.Collection = Link.mk (SanitizeFilename movie.Collection) ∧
      (movie.Collection = "" → n.Collection = Link.mk "") := by
  obtain ⟨cast, genres, hn⟩ := CreateMovie_note_eq env movie s h
  refine ⟨_, hn, rfl, rfl, rfl, rfl, rfl, ?_⟩
  intro hc
  show Link.mk (SanitizeFilename movie.Collection) = Link.mk ""
  rw [hc]
  rfl

theorem CreateMovie_note_fields_witness :
    ∃ n, (CreateMovie (sampleEnv []) exampleFilm emptyVault).note = some n ∧
      n.Owned = false ∧
      n.Playlists = [Link.mk "Newly Added"] ∧
      n.Title = SanitizeFilename exampleFilm.Title ∧
      n.Poster = Link.mk (SanitizeFilename exampleFilm.Title ++ ".jpg") ∧
      n.Collection = Link.mk (SanitizeFilename exampleFilm.Collection) ∧
      (exampleFilm.Collection = "" → n.Collection = Link.mk "") :=
  CreateMovie_note_fields (sampleEnv []) exampleFilm emptyVault (by decide)

/-- C6, as the specification states it, fails: on a vault with empty caches
`CreateActor "X"` and `CreateGenre "Drama"` succeed and leave the caches empty,
and after a first `CreateMovie` has created the note of actor `X`, a second
`CreateMovie` on the same vault leaves `X` out of its cast. -/
theorem caches_current_counterexample :
    (CreateActor (sampleEnv []) "X" emptyVault).1 = none ∧
    "X" ∉ (CreateActor (sampleEnv []) "X" emptyVault).2.vault.ActorsCache ∧
    (CreateGenre (sampleEnv []) "Drama" emptyVault).1 = none ∧
    "Drama" ∉ (CreateGenre (sampleEnv []) "Drama" emptyVault).2.vault.GenresCache ∧
    (CreateMovie (sampleEnv []) exampleFilm emptyVault).exit = Exit.done ∧
    (CreateMovie (sampleEnv []) exampleFilm emptyVault).state.files "v/actors/X.md" = some [] ∧
    (CreateMovie (sampleEnv []) secondFilm
      (CreateMovie (sampleEnv []) exampleFilm emptyVault).state).exit = Exit.done ∧
    ((CreateMovie (sampleEnv []) secondFilm
      (CreateMovie (sampleEnv []) exampleFilm emptyVault).state).note.map MovieNote.Cast)
      = some [] := by
  decide

/-- C6, amended: `CreateActor`, `CreateGenre` and `CreateMovie` leave the vault,
and with it both caches, as they found it: a name is in a cache after the call
exactly when it was before, and a later `CreateMovie` on the same vault filters
any cast against the same known actors as before. -/
theorem caches_unchanged (env : Env) (name : String) (movie : Movie) (cast : List Actor)
    (s : State) :
    (CreateActor env name s).2.vault = s.vault ∧
    (name ∈ (CreateActor env name s).2.vault.ActorsCache ↔ name ∈ s.vault.ActorsCache) ∧
    (CreateGenre env name s).2.vault = s.vault ∧
    (name ∈ (CreateGenre env name s).2.vault.GenresCache ↔ name ∈ s.vault.GenresCache) ∧
    (CreateMovie env movie s).state.vault = s.vault ∧
    filterCast cast (CreateMovie env movie s).state.vault.ActorsCache =
      filterCast cast s.vault.ActorsCache := by
  have ha : (CreateActor env name s).2.vault = s.vault := (osCreate_extends env _ s).1
  have hg : (CreateGenre env name s).2.vault = s.vault := (osCreate_extends env _ s).1
  have hm := (CreateMovie_extends env movie s).1
  exact ⟨ha, by rw [ha], hg, by rw [hg], hm, by rw [hm]⟩

/-- When `CreateMovie` returns from its genre loop at position `k`, the poster
download had succeeded, an error is returned, and the stub files of the genres
before position `k` and the poster file are on disk: nothing is rolled back. -/
theorem CreateMovie_genreFailed_keeps_files (env : Env) (movie : Movie) (s : State) (k : Nat)
    (h : (CreateMovie env movie s).exit = Exit.genreFailed k) :
    (downloadPoster env (SanitizeFilename movie.Title ++ ".jpg") movie s).1 = none ∧
    (∃ err, (CreateMovie env movie s).err = some err) ∧
    k < movie.Genres.length ∧
    (∀ j, j < k → ∃ g, movie.Genres[j]? = some g ∧
      (CreateMovie env movie s).state.files (Join s.vault.GenresDir (g ++ ".md")) ≠ none) ∧
    (CreateMovie env movie s).state.files
      (Join s.vault.AttachmentsDir (SanitizeFilename movie.Title ++ ".jpg")) ≠ none := by
  obtain ⟨s1, n1, s2, err, hd, hcl, hgl, herr, hstate⟩ :=
    CreateMovie_genreFailed_inv env movie s k h
  have e1 := downloadPoster_extends env (SanitizeFilename movie.Title ++ ".jpg") movie s
  have p1 := downloadPoster_ok env (SanitizeFilename movie.Title ++ ".jpg") movie s
    (by rw [hd])
  rw [hd] at e1 p1
  have e2 := castLoop_extends env (filterCast movie.Cast s1.vault.ActorsCache) 0
    (CreateMovie.newNote movie (SanitizeFilename movie.Title)
      (SanitizeFilename movie.Title ++ ".jpg")) s1
  rw [hcl] at e2
  have hv2 : s2.vault = s.vault := e2.1.trans e1.1
  have e3 := genreLoop_extends env movie.Genres 0 n1 s2
  obtain ⟨j, hk, hj, hfiles⟩ := genreLoop_failed env movie.Genres 0 n1 s2 err k hgl
  have hjk : j = k := by omega
  subst hjk
  rw [hv2] at hfiles
  refine ⟨by rw [hd], ⟨err, herr⟩, hj, ?_, ?_⟩
  · intro m hm
    rw [hstate]
    exact hfiles m hm
  · rw [hstate]
    exact e3.2 _ (e2.2 _ p1)

/-- C7: the code departs from the specification and from the comment of
`CreateGenre`.  On the vault `v`, for the movie titled `T` with the genres
`../movies/T` and `Sci-Fi/Fantasy`, the poster download succeeds and
`CreateGenre` fails on the genre at position 1, so `CreateMovie` returns an
error; yet the movie note `v/movies/T.md`, absent before the call, exists after
it.  The name of the genre at position 0 is joined unsanitized to the genres
directory, which gives the path of the movie note, and its stub is created
there, outside the genres directory. -/
theorem CreateMovie_genre_stub_creates_note :
    (downloadPoster (sampleEnv ["v/genres/Sci-Fi/Fantasy.md"])
      (SanitizeFilename crossingFilm.Title ++ ".jpg") crossingFilm emptyVault).1 = none ∧
    (CreateGenre (sampleEnv ["v/genres/Sci-Fi/Fantasy.md"]) "Sci-Fi/Fantasy" emptyVault).1
      ≠ none ∧
    (CreateMovie (sampleEnv ["v/genres/Sci-Fi/Fantasy.md"]) crossingFilm emptyVault).exit
      = Exit.genreFailed 1 ∧
    (CreateMovie (sampleEnv ["v/genres/Sci-Fi/Fantasy.md"]) crossingFilm emptyVault).err
      ≠ none ∧
    Join emptyVault.vault.MoviesDir (SanitizeFilename crossingFilm.Title ++ ".md")
      = "v/movies/T.md" ∧
    Join emptyVault.vault.GenresDir ("../movies/T" ++ ".md") = "v/movies/T.md" ∧
    emptyVault.files "v/movies/T.md" = none ∧
    (CreateGenre (sampleEnv ["v/genres/Sci-Fi/Fantasy.md"]) "../movies/T" emptyVault).2.files
      "v/movies/T.md" = some [] ∧
    (CreateMovie (sampleEnv ["v/genres/Sci-Fi/Fantasy.md"]) crossingFilm emptyVault).state.files
      "v/movies/T.md" = some [] := by
  decide

/-! ### The embedding on the examples of the specification and of the Go
documentation -/

theorem SanitizeFilename_example :
    SanitizeFilename "Se7en: A Tale" = "Se7en - A Tale" ∧
    SanitizeFilename "" = "" ∧
    SanitizeFilename "  a|b? " = "a-b" := by
  decide

theorem Join_examples :
    Join "v" "movies" = "v/movies" ∧
    Join "a" "" = "a" ∧
    Join "" "" = "" ∧
    Join "a/b" "../../../xyz" = "../xyz" ∧
    Join "/" "../a//b/./c/.." = "/a/b" ∧
    Join "a/.." "" = "." ∧
    Join "v/genres" "Drama.md" = "v/genres/Drama.md" := by
  decide

theorem CreateMovie_example :
    (CreateMovie (sampleEnv []) exampleFilm emptyVault).err = none ∧
    (CreateMovie (sampleEnv []) exampleFilm emptyVault).state.files "v/movies/Example Film.md"
      ≠ none ∧
    (CreateMovie (sampleEnv []) exampleFilm emptyVault).state.files "v/actors/X.md" = some [] ∧
    (CreateMovie (sampleEnv []) exampleFilm emptyVault).state.files "v/genres/Drama.md"
      = some [] ∧
    (CreateMovie (sampleEnv []) exampleFilm emptyVault).state.files
      "v/attachments/Example Film.jpg" = some [255, 216, 255] := by
  decide

end Obsidian
